import Mathlib

/-!
Verification model of the IMOBOT chat widget client
(`src/static/js/script.js`, class `IMOBOTChat`).

Modelling conventions:
* JS strings are Lean `String`s; the character-level algorithms work on
  `List Char` (a Lean `String` is a packed `List Char`).
* A global regex replace with a literal pattern (`s.replace(/pat/g, rep)`)
  is `replaceSubstr`: a left-to-right, non-overlapping replacement of every
  occurrence.  The three non-literal regexes of `_formatMessage`
  (bold, bare URLs) are modelled by dedicated scanners with the exact
  JS regex semantics (lazy `.+?` excluding line terminators, greedy
  `[^\s<]+`).
* JS numbers appearing as catalog prices are exact rationals `ℚ`
  (`toFixed(2)` is the exact-arithmetic rounding mandated by the
  ECMAScript specification of `Number.prototype.toFixed`); stock
  quantities and counters are integers.
* DOM writes are recorded as explicit event lists; `fetch` is represented
  by the list of issued request payloads; the single busy flag is the
  `isTyping` field of the widget state.
* A JS `TypeError` (field access on `null`) is an `Except.error`.
Recursive scanners take an explicit step counter ("fuel", always
initialised to the length of the scanned list, which is an upper bound on
the number of steps) so that all definitions are structurally recursive
and evaluable by `decide`.
-/

deriving instance DecidableEq for Except

namespace IMOBOT

/-- Characters matched by the JS regex class `\s` (whitespace and line
terminators), as used by `trim` and `[^\s<]`. -/
def jsWhitespaceChar (c : Char) : Bool :=
  c == ' ' || c == '\t' || c == '\n' || c == '\r' || c == '\x0b' ||
  c == '\x0c' || c == '\u00A0' || c == '\u2028' || c == '\u2029' || c == '\uFEFF'

/-- Step-counted core of `replaceSubstr`. -/
def replaceSubstrF (pat rep : List Char) : Nat → List Char → List Char
  | 0, s => s
  | _ + 1, [] => []
  | fuel + 1, a :: s =>
    if pat.isPrefixOf (a :: s) then
      rep ++ replaceSubstrF pat rep fuel (s.drop (pat.length - 1))
    else
      a :: replaceSubstrF pat rep fuel s

/-- JS `String.prototype.replace` with a global regex whose pattern is the
literal string `pat`: replaces every occurrence of `pat` by `rep`,
scanning left to right, never rescanning replacement text at the match
position. -/
def replaceSubstr (pat rep s : List Char) : List Char :=
  replaceSubstrF pat rep s.length s

/-- Model of `_escapeHtml` (script.js lines 103-110): the five chained
single-character global replaces, in source order
(`&`, `<`, `>`, `"`, `'`). -/
def escapeHtmlL (s : List Char) : List Char :=
  replaceSubstr ['\x27'] "&#039;".data
    (replaceSubstr ['\x22'] "&quot;".data
      (replaceSubstr ['>'] "&gt;".data
        (replaceSubstr ['<'] "&lt;".data
          (replaceSubstr ['&'] "&amp;".data s))))

/-- `_escapeHtml` on packed strings. -/
def escapeHtml (s : String) : String :=
  (escapeHtmlL s.data).asString

/-- Characters the JS regex `.` (no `s` flag) does not match. -/
def dotChar (c : Char) : Bool :=
  !(c == '\n' || c == '\r' || c == '\u2028' || c == '\u2029')

/-- Lazy search for the body of `\*\*(.+?)\*\*` starting right after an
opening `**`: returns the shortest non-empty run of `.`-matching
characters that is immediately followed by `**`, together with the
remainder after the closing `**`. -/
def findBold : List Char → Option (List Char × List Char)
  | [] => none
  | c :: rest =>
    if dotChar c then
      match rest with
      | '*' :: '*' :: rest2 => some ([c], rest2)
      | _ =>
        match findBold rest with
        | some (content, rest2) => some (c :: content, rest2)
        | none => none
    else none

/-- Step-counted scanner for the global replace
`safe.replace` for the bold regex of `_formatMessage` (strong tags around the capture).  On a failed match attempt the scan advances one
character, exactly as the JS regex engine does. -/
def boldReplaceF : Nat → List Char → List Char
  | 0, s => s
  | _ + 1, [] => []
  | fuel + 1, '*' :: '*' :: rest =>
    (match findBold rest with
     | some (content, rest2) =>
        "<strong>".data ++ content ++ "</strong>".data ++ boldReplaceF fuel rest2
     | none => '*' :: boldReplaceF fuel ('*' :: rest))
  | fuel + 1, a :: s => a :: boldReplaceF fuel s

/-- Bold markup substitution of `_formatMessage` (line 116). -/
def boldReplace (s : List Char) : List Char :=
  boldReplaceF s.length s

/-- Newline substitution of `_formatMessage` (line 119): newline to br tag. -/
def brReplace (s : List Char) : List Char :=
  replaceSubstr ['\n'] "<br>".data s

/-- Characters matched by `[^\s<]`. -/
def urlChar (c : Char) : Bool :=
  !jsWhitespaceChar c && c != '<'

/-- Attempt to match `(https?:\/\/[^\s<]+)` at the head of the list:
scheme first (greedy optional `s`), then a greedy non-empty run of
`[^\s<]` characters.  Returns the matched URL and the remainder. -/
def matchUrl (s : List Char) : Option (List Char × List Char) :=
  if ("https://").data.isPrefixOf s then
    let body := (s.drop 8).takeWhile urlChar
    if body.isEmpty then none
    else some ("https://".data ++ body, (s.drop 8).dropWhile urlChar)
  else if ("http://").data.isPrefixOf s then
    let body := (s.drop 7).takeWhile urlChar
    if body.isEmpty then none
    else some ("http://".data ++ body, (s.drop 7).dropWhile urlChar)
  else none

/-- Replacement text for one URL match: the anchor element of line 122,
with the capture `$1` interpolated twice. -/
def anchorFor (url : List Char) : List Char :=
  "<a href=\x22".data ++ url ++
  "\x22 target=\x22_blank\x22 rel=\x22noopener noreferrer\x22>".data ++ url ++ "</a>".data

/-- Step-counted scanner for the global URL replace of `_formatMessage`
(line 122). -/
def urlReplaceF : Nat → List Char → List Char
  | 0, s => s
  | _ + 1, [] => []
  | fuel + 1, a :: rest =>
    match matchUrl (a :: rest) with
    | some (url, rest2) => anchorFor url ++ urlReplaceF fuel rest2
    | none => a :: urlReplaceF fuel rest

/-- URL substitution of `_formatMessage` (line 122). -/
def urlReplace (s : List Char) : List Char :=
  urlReplaceF s.length s

/-- Wrapper inserted around each known emoji glyph (lines 125-138). -/
def emojiWrap (e : String) : String :=
  "<span style=\x22font-size: 1.2em;\x22>" ++ e ++ "</span>"

/-- The fixed emoji list of `_formatMessage`, in source order. -/
def emojiList : List String :=
  ["🚗", "🚙", "🔧", "📋", "📦", "✅", "❌", "⚠️", "💰", "📊", "📱", "📧", "🎉", "✨"]

/-- The fourteen emoji global replaces of `_formatMessage`, applied in
source order. -/
def emojiPass (s : List Char) : List Char :=
  emojiList.foldl (fun acc e => replaceSubstr e.data (emojiWrap e).data acc) s

/-- Everything `_formatMessage` does after escaping: bold, newline,
URL and emoji substitutions, in source order (lines 116-138). -/
def substitutionsL (s : List Char) : List Char :=
  emojiPass (urlReplace (brReplace (boldReplace s)))

/-- Markup substitutions on packed strings. -/
def substitutions (t : String) : String :=
  (substitutionsL t.data).asString

/-- Model of `_formatMessage` (lines 112-141): escape first, then the
markup substitutions. -/
def formatMessage (content : String) : String :=
  substitutions (escapeHtml content)

/-- The entity (or identity) image of a single character under
`_escapeHtml`; used to state that escaping acts character by character. -/
def htmlEntity (c : Char) : List Char :=
  if c = '&' then ("&amp;").data
  else if c = '<' then ("&lt;").data
  else if c = '>' then ("&gt;").data
  else if c = '\x22' then ("&quot;").data
  else if c = '\x27' then ("&#039;").data
  else [c]

/-- Decimal digit list of a natural number, most significant digit first;
`fuel` bounds the recursion depth (any value above the digit count, in
particular `n + 1`, gives the digits). -/
def natDigitsF : Nat → Nat → List Char
  | 0, _ => []
  | fuel + 1, n =>
    if n < 10 then [Nat.digitChar n]
    else natDigitsF fuel (n / 10) ++ [Nat.digitChar (n % 10)]

/-- Decimal rendering of a natural number, as JS renders integral numbers
below 2^53 in template literals. -/
def natRepr (n : Nat) : String :=
  (natDigitsF (n + 1) n).asString

/-- Decimal rendering of an integer. -/
def intRepr (i : Int) : String :=
  if i < 0 then ("-") ++ natRepr i.natAbs else natRepr i.natAbs

/-- Two-digit zero-padded rendering of a value below 100. -/
def pad2 (n : Nat) : String :=
  if n < 10 then ("0") ++ natRepr n else natRepr n

/-- Scaled rounding of `Number.prototype.toFixed(2)` for a non-negative
rational `num / den`: the integer `n` closest to `100 * num / den`,
larger one on ties, computed as `floor((200 * num + den) / (2 * den))`
with exact integer arithmetic. -/
def toFixed2Scaled (num : Int) (den : Nat) : Nat :=
  ((200 * num + (den : Int)) / (2 * (den : Int))).toNat

/-- Model of `Number.prototype.toFixed(2)` on an exact rational: sign,
then integer part, a dot, and two fractional digits, per the ECMAScript
abstract specification (ties pick the larger scaled integer). -/
def toFixed2 (q : ℚ) : String :=
  if q.num < 0 then
    ("-") ++ natRepr (toFixed2Scaled (-q.num) q.den / 100) ++ "." ++
      pad2 (toFixed2Scaled (-q.num) q.den % 100)
  else
    natRepr (toFixed2Scaled q.num q.den / 100) ++ "." ++
      pad2 (toFixed2Scaled q.num q.den % 100)

/-- Wire shape of a catalog `Part` (spec section 3): every field optional.
A missing field is `none` (JS `undefined`).  Prices are exact rationals,
stock quantities integers. -/
structure Part where
  product_name : Option String
  internal_reference : Option String
  product_description : Option String
  sales_price : Option ℚ
  quantity_on_hand : Option Int
deriving DecidableEq

/-- JS truthiness of an optional number: `undefined` and `0` are falsy. -/
def truthyNum : Option ℚ → Bool
  | some q => decide (q ≠ 0)
  | none => false

/-- JS `x || d` for an optional string with a string default: `undefined`
and the empty string are falsy. -/
def jsOrStr (o : Option String) (d : String) : String :=
  match o with
  | some s => if s == "" then d else s
  | none => d

/-- JS `x || 0` for an optional integer quantity. -/
def jsOrZero : Option Int → Int
  | some q => if q == 0 then 0 else q
  | none => 0

/-- The `price` local of `_displayParts` (line 311):
`p.sales_price ? Number(p.sales_price).toFixed(2) + " DZD" : "Price on request"`. -/
def partPrice (p : Part) : String :=
  if truthyNum p.sales_price then toFixed2 (p.sales_price.getD 0) ++ " DZD"
  else ("Price on request")

/-- The `stock` local of `_displayParts` (line 312). -/
def partStock (p : Part) : Int :=
  jsOrZero p.quantity_on_hand

/-- The `stockClass` local of `_displayParts` (line 313). -/
def partStockClass (p : Part) : String :=
  if partStock p = 0 then ("out") else if partStock p < 5 then ("low") else ("")

/-- The `stockText` local of `_displayParts` (line 314). -/
def partStockText (p : Part) : String :=
  if partStock p = 0 then ("Out of stock") else intRepr (partStock p) ++ " units available"

/-- The card markup assigned to `card.innerHTML` in `_displayParts`
(lines 320-328), with the template whitespace normalised away; field
strings are escaped, absent name defaults to a placeholder, reference and
description rows render only when (escaped) non-empty. -/
def partCardHtml (p : Part) : String :=
  "<div class=\x22part-name\x22>" ++ escapeHtml (jsOrStr p.product_name ("Spare Part")) ++
  "</div><div class=\x22part-details\x22>" ++
  (if escapeHtml (jsOrStr p.internal_reference ("")) ≠ "" then
    ("<div><i class=\x22fas fa-barcode\x22></i> ") ++
      escapeHtml (jsOrStr p.internal_reference ("")) ++ "</div>"
   else ("")) ++
  (if escapeHtml (jsOrStr p.product_description ("")) ≠ "" then
    ("<div style=\x22grid-column: 1/-1;\x22><i class=\x22fas fa-info-circle\x22></i> ") ++
      escapeHtml (jsOrStr p.product_description ("")) ++ "</div>"
   else ("")) ++
  "<div class=\x22part-price\x22><i class=\x22fas fa-money-bill\x22></i> " ++ partPrice p ++
  "</div><div class=\x22part-stock " ++ partStockClass p ++
  "\x22><i class=\x22fas fa-boxes\x22></i> " ++ partStockText p ++ "</div></div>"

/-- The overflow notice markup of `_displayParts` (line 336), for `k`
remaining results. -/
def moreHtml (k : Nat) : String :=
  "<i class=\x22fas fa-plus-circle\x22></i> " ++ natRepr k ++ " more results available"

/-- Message roles of the widget log. -/
inductive Role where
  | user
  | bot
deriving DecidableEq

/-- A DOM fragment appended to the messages container: a chat message
(with its formatted inner HTML), a parts list (card HTML strings plus an
optional overflow notice), or a suggestions row (chip HTML strings). -/
inductive Event where
  | message (role : Role) (html : String)
  | partsList (cards : List String) (more : Option String)
  | suggestions (chips : List String)
deriving DecidableEq

/-- The per-part body of the `forEach` of `_displayParts` (lines 307-331)
over the sliced array.  A `null` array element makes the JS field access
`p.sales_price` throw a `TypeError`, modelled as `Except.error`; the
elements are processed in array order. -/
def buildCards : List (Option Part) → Except String (List String)
  | [] => .ok []
  | none :: _ => .error ("TypeError: null part")
  | some p :: rest =>
    match buildCards rest with
    | .error e => .error e
    | .ok cs => .ok (partCardHtml p :: cs)

/-- Model of `_displayParts` (lines 299-342): early return on an empty
array, at most the first three entries rendered as cards, an overflow
notice iff more than three entries exist.  The container (cards plus
notice) reaches the DOM only if no card construction throws. -/
def displayParts (parts : List (Option Part)) : Except String (List Event) :=
  if parts.isEmpty then .ok []
  else
    match buildCards (parts.take 3) with
    | .error e => .error e
    | .ok cards =>
      .ok [Event.partsList cards
            (if parts.length > 3 then some (moreHtml (parts.length - 3)) else none)]

/-- ASCII lowering, the effect of `toLowerCase` on the labels involved. -/
def jsToLowerCase (s : String) : String :=
  ⟨s.data.map Char.toLower⟩

/-- Substring occurrence test on character lists. -/
def isInfixL (pat : List Char) : List Char → Bool
  | [] => pat.isEmpty
  | l@(_ :: t) => pat.isPrefixOf l || isInfixL pat t

/-- JS `String.prototype.includes`. -/
def jsIncludes (s pat : String) : Bool :=
  isInfixL pat.data s.data

/-- Icon chosen for a suggestion label (lines 355-365): the first
case-insensitive keyword match in source order, with a lightbulb
default. -/
def suggestionIcon (label : String) : String :=
  if jsIncludes (jsToLowerCase label) "search" then ("fas fa-search")
  else if jsIncludes (jsToLowerCase label) "track" then ("fas fa-truck")
  else if jsIncludes (jsToLowerCase label) "report" then ("fas fa-chart-line")
  else if jsIncludes (jsToLowerCase label) "yes" then ("fas fa-check")
  else if jsIncludes (jsToLowerCase label) "no" then ("fas fa-times")
  else if jsIncludes (jsToLowerCase label) "skip" then ("fas fa-forward")
  else if jsIncludes (jsToLowerCase label) "order" then ("fas fa-shopping-cart")
  else if jsIncludes (jsToLowerCase label) "continue" then ("fas fa-arrow-right")
  else if jsIncludes (jsToLowerCase label) "reference" then ("fas fa-barcode")
  else if jsIncludes (jsToLowerCase label) "part" then ("fas fa-cog")
  else ("fas fa-lightbulb")

/-- The chip markup assigned to `btn.innerHTML` in `_renderSuggestions`
(line 367): the icon element followed by the raw label. -/
def suggestionChipHtml (label : String) : String :=
  "<i class=\x22" ++ suggestionIcon label ++ "\x22></i> " ++ label

/-- Model of `_renderSuggestions` (lines 344-379): nothing for an empty
list, otherwise one suggestions row with a chip per label. -/
def renderSuggestions (list : List String) : List Event :=
  if list.isEmpty then [] else [Event.suggestions (list.map suggestionChipHtml)]

/-- Wire shape of a server response (spec section 3): all fields optional;
`data` elements may be `null` (`none`). -/
structure ServerResponse where
  reply : Option String
  type : Option String
  data : Option (List (Option Part))
  suggestions : Option (List String)
deriving DecidableEq

/-- JS falsiness of the optional `reply` string. -/
def replyFalsy : Option String → Bool
  | some r => r == ""
  | none => true

/-- JS falsiness of the optional `data` array (an array is truthy even
when empty). -/
def dataFalsy : Option (List (Option Part)) → Bool
  | some _ => false
  | none => true

/-- The fixed fallback text of `_handleServerResponse` (line 293). -/
def fallbackReplyText : String :=
  "I did not understand the response from the server. Please try rephrasing."

/-- The fallback bot message as appended by `_addMessage` (formatted). -/
def fallbackEvent : Event :=
  Event.message Role.bot (formatMessage fallbackReplyText)

/-- Result of one `_handleServerResponse` run: the fragments appended to
the message log in order, the uncaught JS exception if one was thrown
(it propagates to the `try` of `sendMessage`), and whether the trailing
`this.messageCount++` was reached. -/
structure RenderResult where
  events : List Event
  thrown : Option String
  countInc : Bool
deriving DecidableEq

/-- Model of `_handleServerResponse` (lines 276-297): reply message if
`data.reply` is truthy; parts rendering if `data.type === "parts"` and
`data.data` is an array; suggestion chips if `data.suggestions` is a
non-empty array; the fallback bot message iff both `reply` and `data`
are falsy.  A throw inside `_displayParts` aborts the remaining steps. -/
def handleServerResponse (resp : ServerResponse) : RenderResult :=
  let replyEvents :=
    match resp.reply with
    | some r => if r == "" then [] else [Event.message Role.bot (formatMessage r)]
    | none => []
  let partsRes :=
    if resp.type = some ("parts") then
      match resp.data with
      | some l => displayParts l
      | none => Except.ok []
    else Except.ok []
  match partsRes with
  | .error e => ⟨replyEvents, some e, false⟩
  | .ok partEvents =>
    let suggEvents :=
      match resp.suggestions with
      | some l => if l.isEmpty then [] else renderSuggestions l
      | none => []
    let fallbackEvents :=
      if replyFalsy resp.reply && dataFalsy resp.data then [fallbackEvent] else []
    ⟨replyEvents ++ partEvents ++ suggEvents ++ fallbackEvents, none, true⟩


/-- Every element of the optional data array is an object (no `null`
entries); vacuously true when the field is absent. -/
def dataAllSome : Option (List (Option Part)) → Bool
  | some l => l.all Option.isSome
  | none => true

/-- Body of one outbound POST (line 240): `{ message, sessionId }`. -/
structure Payload where
  message : String
  sessionId : String
deriving DecidableEq

/-- Widget state touched by `sendMessage`: the text input value, the
`isTyping` busy flag, the message counter, the appended log fragments and
the issued POST requests. -/
structure ChatState where
  inputValue : String
  isTyping : Bool
  messageCount : Nat
  log : List Event
  posts : List Payload
deriving DecidableEq

/-- JS `String.prototype.trim` (whitespace and line terminators stripped
from both ends). -/
def jsTrim (s : String) : String :=
  ⟨((s.data.dropWhile jsWhitespaceChar).reverse.dropWhile jsWhitespaceChar).reverse⟩

/-- The synchronous prefix of `sendMessage` (lines 229-253), up to and
including issuing the POST: trim the input; silently return if the
trimmed text is empty or a response is pending (`isTyping`); otherwise
append the user message, clear the input, bump the counter, set the busy
flag (`_showTyping`) and issue exactly one POST with the trimmed text and
the session id. -/
def sendMessageStart (sessionId : String) (st : ChatState) : ChatState :=
  let raw := jsTrim st.inputValue
  if raw == "" || st.isTyping then st
  else
    { inputValue := ""
      isTyping := true
      messageCount := st.messageCount + 1
      log := st.log ++ [Event.message Role.user (formatMessage raw)]
      posts := st.posts ++ [⟨raw, sessionId⟩] }

/-- Outcome of the `localStorage.getItem` read in
`_restoreOrCreateSessionId`: a stored value, no stored value, or a thrown
storage error (caught at line 32). -/
inductive StorageRead where
  | val (s : String)
  | absent
  | threw
deriving DecidableEq

/-- Base-36 digit characters, as produced by `Number.prototype.toString(36)`. -/
def base36Char (d : Fin 36) : Char :=
  if d.val < 10 then Char.ofNat (48 + d.val) else Char.ofNat (87 + d.val)

/-- Model of `Math.random().toString(36).slice(2, 10)` (line 35).
`Math.random()` returns a double in `[0, 1)`; `toString(36)` renders it
as `0.` followed by its base-36 fractional digits with no trailing zero
digit (just `0` for zero); `slice(2, 10)` keeps the first eight of those
digits — fewer when the expansion is shorter.  The digit list is the
abstract random input. -/
def randomSuffix (digits : List (Fin 36)) : String :=
  ((digits.map base36Char).take 8).asString

/-- The fresh token template of line 35. -/
def newSessionId (now : Nat) (digits : List (Fin 36)) : String :=
  "session_" ++ natRepr now ++ "_" ++ randomSuffix digits

/-- Model of `_restoreOrCreateSessionId` (lines 28-40).  A truthy stored
value is returned as is (second component: whether a write persisted).
Otherwise a fresh token is built from the clock and the random digits and
a `localStorage.setItem` is attempted whose failure is swallowed
(`writeOk` records whether it succeeded); the fresh token is returned
either way. -/
def restoreOrCreateSessionId (read : StorageRead) (now : Nat)
    (digits : List (Fin 36)) (writeOk : Bool) : String × Bool :=
  match read with
  | .val s => if s == "" then (newSessionId now digits, writeOk) else (s, false)
  | .absent => (newSessionId now digits, writeOk)
  | .threw => (newSessionId now digits, writeOk)


/-- Per-character action of the first replace of `_escapeHtml`. -/
def escAmp (a : Char) : List Char := if a = '&' then ("&amp;").data else [a]

/-- Per-character action of the second replace of `_escapeHtml`. -/
def escLt (a : Char) : List Char := if a = '<' then ("&lt;").data else [a]

/-- Per-character action of the third replace of `_escapeHtml`. -/
def escGt (a : Char) : List Char := if a = '>' then ("&gt;").data else [a]

/-- Per-character action of the fourth replace of `_escapeHtml`. -/
def escQuot (a : Char) : List Char := if a = '\x22' then ("&quot;").data else [a]

/-- Per-character action of the fifth replace of `_escapeHtml`. -/
def escApos (a : Char) : List Char := if a = '\x27' then ("&#039;").data else [a]

theorem replaceSubstrF_single (c : Char) (r : List Char) :
    ∀ (fuel : Nat) (s : List Char), s.length ≤ fuel →
      replaceSubstrF [c] r fuel s = s.flatMap (fun a => if a = c then r else [a]) := by
  intro fuel
  induction fuel with
  | zero =>
    intro s hs
    have : s = [] := List.eq_nil_of_length_eq_zero (Nat.le_zero.mp hs)
    subst this
    rfl
  | succ fuel ih =>
    intro s hs
    cases s with
    | nil => rfl
    | cons a t =>
      have ht : t.length ≤ fuel := by simpa using hs
      by_cases h : a = c
      · subst h
        simp [replaceSubstrF, List.isPrefixOf, ih t ht]
      · have hb : (c == a) = false := by
          simp [beq_iff_eq]
          exact fun he => h he.symm
        simp [replaceSubstrF, List.isPrefixOf, hb, h, ih t ht]

theorem replaceSubstr_single (c : Char) (r : List Char) (s : List Char) :
    replaceSubstr [c] r s = s.flatMap (fun a => if a = c then r else [a]) :=
  replaceSubstrF_single c r s.length s (Nat.le_refl _)

theorem entity_chain (a : Char) :
    ((((escAmp a).flatMap escLt).flatMap escGt).flatMap escQuot).flatMap escApos =
      htmlEntity a := by
  by_cases h1 : a = '&'
  · subst h1; decide
  · by_cases h2 : a = '<'
    · subst h2; decide
    · by_cases h3 : a = '>'
      · subst h3; decide
      · by_cases h4 : a = '\x22'
        · subst h4; decide
        · by_cases h5 : a = '\x27'
          · subst h5; decide
          · simp [escAmp, escLt, escGt, escQuot, escApos, htmlEntity, h1, h2, h3, h4, h5]

theorem flatMap_chain (s : List Char) :
    ((((s.flatMap escAmp).flatMap escLt).flatMap escGt).flatMap escQuot).flatMap escApos =
      s.flatMap htmlEntity := by
  induction s with
  | nil => rfl
  | cons a t ih =>
    simp only [List.flatMap_cons, List.flatMap_append]
    rw [ih, entity_chain]

theorem escapeHtmlL_eq_flatMap (s : List Char) :
    escapeHtmlL s = s.flatMap htmlEntity := by
  unfold escapeHtmlL
  rw [replaceSubstr_single '&' "&amp;".data s]
  rw [replaceSubstr_single '<' "&lt;".data]
  rw [replaceSubstr_single '>' "&gt;".data]
  rw [replaceSubstr_single '\x22' "&quot;".data]
  rw [replaceSubstr_single '\x27' "&#039;".data]
  exact flatMap_chain s

theorem htmlEntity_mem (a c : Char) (hc : c ∈ htmlEntity a) :
    c ≠ '<' ∧ c ≠ '>' ∧ c ≠ '\x22' ∧ c ≠ '\x27' := by
  unfold htmlEntity at hc
  split_ifs at hc with h1 h2 h3 h4 h5
  · fin_cases hc <;> decide
  · fin_cases hc <;> decide
  · fin_cases hc <;> decide
  · fin_cases hc <;> decide
  · fin_cases hc <;> decide
  · have : c = a := List.mem_singleton.mp hc
    subst this
    exact ⟨h2, h3, h4, h5⟩

/-- C1: rendering a reply escapes first and substitutes markup second:
`_formatMessage` is exactly the markup substitutions applied to the
`_escapeHtml` image; escaping acts character by character, sending each
HTML-significant character to its entity, so the escaped text contains no
raw `<`, `>`, quote or apostrophe originating from the input. -/
theorem escape_before_substitution (s : String) :
    formatMessage s = substitutions (escapeHtml s) ∧
    (escapeHtml s).data = s.data.flatMap htmlEntity ∧
    ∀ c ∈ (escapeHtml s).data, c ≠ '<' ∧ c ≠ '>' ∧ c ≠ '\x22' ∧ c ≠ '\x27' := by
  refine ⟨rfl, escapeHtmlL_eq_flatMap s.data, ?_⟩
  intro c hc
  have hc2 : c ∈ s.data.flatMap htmlEntity := by
    rw [← escapeHtmlL_eq_flatMap s.data]
    exact hc
  obtain ⟨a, _, ha⟩ := List.mem_flatMap.mp hc2
  exact htmlEntity_mem a c ha

/-- Witness for C1 at a concrete input containing every escaped character. -/
theorem escape_before_substitution_witness :
    formatMessage ("a<b&c\x22d\x27e>f") = substitutions (escapeHtml ("a<b&c\x22d\x27e>f")) ∧
    (escapeHtml ("a<b&c\x22d\x27e>f")).data = "a<b&c\x22d\x27e>f".data.flatMap htmlEntity :=
  ⟨(escape_before_substitution ("a<b&c\x22d\x27e>f")).1,
   (escape_before_substitution ("a<b&c\x22d\x27e>f")).2.1⟩


theorem sendMessageStart_busy (sid : String) (st : ChatState) (h : st.isTyping = true) :
    sendMessageStart sid st = st := by
  simp [sendMessageStart, h]

/-- C2: the busy flag gives single-flight sends: a send while a response
is pending changes nothing, a second send right after a first is the
identity (so a rapid double trigger issues the requests of the first
alone), and one invocation issues at most one POST. -/
theorem sendMessage_single_flight (sid : String) (st : ChatState) :
    (st.isTyping = true → sendMessageStart sid st = st) ∧
    sendMessageStart sid (sendMessageStart sid st) = sendMessageStart sid st ∧
    (sendMessageStart sid st).posts.length ≤ st.posts.length + 1 := by
  refine ⟨sendMessageStart_busy sid st, ?_, ?_⟩
  · by_cases hg : (jsTrim st.inputValue == "" || st.isTyping) = true
    · have h1 : sendMessageStart sid st = st := by simp [sendMessageStart, hg]
      rw [h1, h1]
    · have h1 : (sendMessageStart sid st).isTyping = true := by
        simp [sendMessageStart, hg]
      exact sendMessageStart_busy sid _ h1
  · by_cases hg : (jsTrim st.inputValue == "" || st.isTyping) = true
    · simp [sendMessageStart, hg]
    · simp [sendMessageStart, hg]

/-- Witness for C2: a send in the busy state is dropped. -/
theorem sendMessage_single_flight_witness :
    (⟨"hello", true, 0, [], []⟩ : ChatState).isTyping = true ∧
    sendMessageStart ("s") ⟨"hello", true, 0, [], []⟩ = ⟨"hello", true, 0, [], []⟩ :=
  ⟨rfl, (sendMessage_single_flight ("s") ⟨"hello", true, 0, [], []⟩).1 rfl⟩

/-- C6: `sendMessage` needs text that trims non-empty and no pending
exchange, silently no-oping otherwise; when the preconditions hold the
input is trimmed before use, appended as a user message and POSTed once
with the session id. -/
theorem sendMessage_preconditions_and_trim (sid : String) (st : ChatState) :
    ((jsTrim st.inputValue == "" || st.isTyping) = true → sendMessageStart sid st = st) ∧
    (st.inputValue = "  M3 bearing  " → st.isTyping = false →
      sendMessageStart sid st =
        { inputValue := "", isTyping := true, messageCount := st.messageCount + 1,
          log := st.log ++ [Event.message Role.user (formatMessage ("M3 bearing"))],
          posts := st.posts ++ [⟨"M3 bearing", sid⟩] }) := by
  constructor
  · intro hg
    simp [sendMessageStart, hg]
  · intro h1 h2
    have ht : jsTrim ("  M3 bearing  ") = "M3 bearing" := by decide
    simp [sendMessageStart, h1, h2, ht]

/-- Witness for C6: the example exchange from the concrete start state. -/
theorem sendMessage_preconditions_and_trim_witness :
    (⟨"  M3 bearing  ", false, 0, [], []⟩ : ChatState).inputValue = "  M3 bearing  " ∧
    sendMessageStart ("sess") ⟨"  M3 bearing  ", false, 0, [], []⟩ =
      { inputValue := "", isTyping := true, messageCount := 1,
        log := [Event.message Role.user (formatMessage ("M3 bearing"))],
        posts := [⟨"M3 bearing", "sess"⟩] } :=
  ⟨rfl, (sendMessage_preconditions_and_trim ("sess") ⟨"  M3 bearing  ", false, 0, [], []⟩).2 rfl rfl⟩

theorem partStock_some (p : Part) (q : Int) (h : p.quantity_on_hand = some q) :
    partStock p = q := by
  simp only [partStock, jsOrZero, h]
  split
  · next h0 =>
      have hq : q = 0 := by simpa using h0
      exact hq.symm
  · rfl

/-- C5: stock tiering of a part card: quantity 0 gives the out-of-stock
label and class, 1 through 4 the low class, at least 5 no special class;
4 is low and 5 is not. -/
theorem stock_tiering (p : Part) (q : Int) (h : p.quantity_on_hand = some q) :
    (q = 0 → partStockClass p = "out" ∧ partStockText p = "Out of stock") ∧
    (1 ≤ q → q ≤ 4 → partStockClass p = "low") ∧
    (5 ≤ q → partStockClass p = "") ∧
    (q = 4 → partStockClass p = "low") ∧
    (q = 5 → partStockClass p = "") := by
  have hs := partStock_some p q h
  refine ⟨?_, ?_, ?_, ?_, ?_⟩
  · intro h0
    constructor
    · simp [partStockClass, hs, h0]
    · simp [partStockText, hs, h0]
  · intro hl hu
    rw [partStockClass, hs, if_neg (by omega), if_pos (by omega)]
  · intro h5
    rw [partStockClass, hs, if_neg (by omega), if_neg (by omega)]
  · intro h4
    rw [partStockClass, hs, if_neg (by omega), if_pos (by omega)]
  · intro h5
    rw [partStockClass, hs, if_neg (by omega), if_neg (by omega)]

/-- Witness for C5 at the boundary quantity 4. -/
theorem stock_tiering_witness :
    (⟨none, none, none, none, some 4⟩ : Part).quantity_on_hand = some 4 ∧
    partStockClass ⟨none, none, none, none, some 4⟩ = "low" :=
  ⟨rfl, (stock_tiering ⟨none, none, none, none, some 4⟩ 4 rfl).2.2.2.1 rfl⟩

theorem digitChar_isDigit : ∀ m, m < 10 → (Nat.digitChar m).isDigit = true := by decide

theorem natDigitsF_isDigit : ∀ (fuel n : Nat), ∀ c ∈ natDigitsF fuel n, c.isDigit = true := by
  intro fuel
  induction fuel with
  | zero => intro n c hc; simp [natDigitsF] at hc
  | succ fuel ih =>
    intro n c hc
    unfold natDigitsF at hc
    by_cases h : n < 10
    · rw [if_pos h] at hc
      have : c = Nat.digitChar n := List.mem_singleton.mp hc
      subst this
      exact digitChar_isDigit n h
    · rw [if_neg h] at hc
      rcases List.mem_append.mp hc with h1 | h2
      · exact ih (n / 10) c h1
      · have : c = Nat.digitChar (n % 10) := List.mem_singleton.mp h2
        subst this
        exact digitChar_isDigit (n % 10) (Nat.mod_lt n (by norm_num))

theorem natRepr_isDigit (n : Nat) : ∀ c ∈ (natRepr n).data, c.isDigit = true :=
  fun c hc => natDigitsF_isDigit (n + 1) n c hc

theorem pad2_isDigit (n : Nat) : ∀ c ∈ (pad2 n).data, c.isDigit = true := by
  intro c hc
  unfold pad2 at hc
  by_cases h : n < 10
  · rw [if_pos h] at hc
    rw [String.data_append] at hc
    rcases List.mem_append.mp hc with h1 | h2
    · have : c = '0' := by simpa using h1
      subst this; decide
    · exact natRepr_isDigit n c h2
  · rw [if_neg h] at hc
    exact natRepr_isDigit n c hc

theorem toFixed2_chars (q : ℚ) :
    ∀ c ∈ (toFixed2 q).data, c.isDigit = true ∨ c = '.' ∨ c = '-' := by
  intro c hc
  unfold toFixed2 at hc
  by_cases h : q.num < 0
  · rw [if_pos h] at hc
    simp only [String.data_append] at hc
    rcases List.mem_append.mp hc with h1 | h2
    · rcases List.mem_append.mp h1 with h3 | h4
      · rcases List.mem_append.mp h3 with h5 | h6
        · have : c = '-' := by simpa using h5
          subst this; right; right; rfl
        · exact Or.inl (natRepr_isDigit _ c h6)
      · have : c = '.' := by simpa using h4
        subst this; right; left; rfl
    · exact Or.inl (pad2_isDigit _ c h2)
  · rw [if_neg h] at hc
    simp only [String.data_append] at hc
    rcases List.mem_append.mp hc with h1 | h2
    · rcases List.mem_append.mp h1 with h3 | h4
      · exact Or.inl (natRepr_isDigit _ c h3)
      · have : c = '.' := by simpa using h4
        subst this; right; left; rfl
    · exact Or.inl (pad2_isDigit _ c h2)

theorem isPrefixOf_mem : ∀ (pat l : List Char), pat.isPrefixOf l = true → ∀ x ∈ pat, x ∈ l := by
  intro pat
  induction pat with
  | nil => intro l _ x hx; simp at hx
  | cons a t ih =>
    intro l hp x hx
    cases l with
    | nil => simp [List.isPrefixOf] at hp
    | cons b l2 =>
      simp only [List.isPrefixOf, Bool.and_eq_true, beq_iff_eq] at hp
      rcases List.mem_cons.mp hx with h1 | h2
      · subst h1; rw [hp.1]; exact List.mem_cons_self b l2
      · exact List.mem_cons_of_mem b (ih l2 hp.2 x h2)

theorem isInfixL_false_of_not_mem (c : Char) (pat : List Char) (hc : c ∈ pat) :
    ∀ l : List Char, c ∉ l → isInfixL pat l = false := by
  intro l
  induction l with
  | nil =>
    intro _
    cases pat with
    | nil => simp at hc
    | cons a t => rfl
  | cons a t ih =>
    intro hnot
    have h1 : pat.isPrefixOf (a :: t) = false := by
      by_contra h
      have := isPrefixOf_mem pat (a :: t) (by simpa using h) c hc
      exact hnot this
    have h2 : isInfixL pat t = false := ih (fun hm => hnot (List.mem_cons_of_mem a hm))
    simp [isInfixL, h1, h2]

theorem partPrice_truthy (p : Part) (h : truthyNum p.sales_price = true) :
    partPrice p = toFixed2 (p.sales_price.getD 0) ++ " DZD" := by
  simp [partPrice, h]

/-- C3 counterexample: a present price of exactly 0 is falsy in JS, so the
card renders the absent-price placeholder instead of the formatted
`0.00 DZD`. -/
theorem price_zero_renders_placeholder :
    partPrice ⟨some ("Oil filter"), none, none, some 0, some 3⟩ = "Price on request" ∧
    toFixed2 0 ++ " DZD" = "0.00 DZD" ∧
    "Price on request" ≠ "0.00 DZD" :=
  ⟨by decide, by decide, by decide⟩

/-- C3 amended: a present price strictly greater than 0 renders as the
price rounded to two decimals plus the fixed currency suffix; an absent
price, and also the boundary price 0, render the placeholder; the price
output never contains the strings NaN or undefined. -/
theorem price_rendering (p : Part) (q : ℚ) :
    (p.sales_price = some q → 0 < q → partPrice p = toFixed2 q ++ " DZD") ∧
    (p.sales_price = some 0 ∨ p.sales_price = none → partPrice p = "Price on request") ∧
    isInfixL ("NaN").data (partPrice p).data = false ∧
    isInfixL ("undefined").data (partPrice p).data = false := by
  have hchars : truthyNum p.sales_price = true →
      ∀ c ∈ (partPrice p).data, c.isDigit = true ∨ c = '.' ∨ c = '-' ∨ c ∈ (" DZD" : String).data := by
    intro ht c hc
    rw [partPrice_truthy p ht, String.data_append] at hc
    rcases List.mem_append.mp hc with h1 | h2
    · rcases toFixed2_chars _ c h1 with h | h | h
      · exact Or.inl h
      · exact Or.inr (Or.inl h)
      · exact Or.inr (Or.inr (Or.inl h))
    · exact Or.inr (Or.inr (Or.inr h2))
  refine ⟨?_, ?_, ?_, ?_⟩
  · intro h h0
    have ht : truthyNum p.sales_price = true := by
      simp [truthyNum, h]
      exact h0.ne'
    rw [partPrice_truthy p ht, h]
    rfl
  · intro h
    rcases h with h | h <;> simp [partPrice, truthyNum, h]
  · by_cases ht : truthyNum p.sales_price = true
    · apply isInfixL_false_of_not_mem 'N' "NaN".data (by decide)
      intro hmem
      rcases hchars ht 'N' hmem with h | h | h | h
      · exact absurd h (by decide)
      · exact absurd h (by decide)
      · exact absurd h (by decide)
      · exact absurd h (by decide)
    · have hp : partPrice p = "Price on request" := by simp [partPrice, ht]
      rw [hp]
      decide
  · by_cases ht : truthyNum p.sales_price = true
    · apply isInfixL_false_of_not_mem 'u' "undefined".data (by decide)
      intro hmem
      rcases hchars ht 'u' hmem with h | h | h | h
      · exact absurd h (by decide)
      · exact absurd h (by decide)
      · exact absurd h (by decide)
      · exact absurd h (by decide)
    · have hp : partPrice p = "Price on request" := by simp [partPrice, ht]
      rw [hp]
      decide

/-- Witness for C3 at the positive non-integral price 3/2. -/
theorem price_rendering_witness :
    ((⟨none, none, none, some (mkRat 3 2), none⟩ : Part).sales_price = some (mkRat 3 2) ∧
      0 < mkRat 3 2) ∧
    partPrice ⟨none, none, none, some (mkRat 3 2), none⟩ = toFixed2 (mkRat 3 2) ++ " DZD" :=
  ⟨⟨rfl, by decide⟩,
   (price_rendering ⟨none, none, none, some (mkRat 3 2), none⟩ (mkRat 3 2)).1 rfl (by decide)⟩

theorem buildCards_map_some : ∀ l : List Part, buildCards (l.map some) = .ok (l.map partCardHtml) := by
  intro l
  induction l with
  | nil => rfl
  | cons p t ih => simp [buildCards, ih]

/-- C4: rendering a data array of n well-formed parts appends exactly
min(n, 3) cards, in array order, and an overflow notice iff n exceeds 3,
counting the n - 3 remaining results. -/
theorem displayParts_card_count (ps : List Part) :
    (ps = [] → displayParts (ps.map some) = .ok []) ∧
    (ps ≠ [] →
      displayParts (ps.map some) =
        .ok [Event.partsList ((ps.take 3).map partCardHtml)
              (if ps.length > 3 then some (moreHtml (ps.length - 3)) else none)] ∧
      ((ps.take 3).map partCardHtml).length = min ps.length 3) := by
  constructor
  · intro h; subst h; rfl
  · intro h
    constructor
    · have hne : (ps.map some).isEmpty = false := by
        cases ps with
        | nil => simp at h
        | cons a t => rfl
      unfold displayParts
      rw [hne]
      simp only [Bool.false_eq_true, if_false]
      rw [← List.map_take, buildCards_map_some]
      simp [List.length_map]
    · simp [List.length_map, List.length_take, Nat.min_comm]

/-- Witness for C4 on a concrete four-element array. -/
theorem displayParts_card_count_witness :
    ([⟨some ("A"), none, none, none, none⟩, ⟨some ("B"), none, none, none, none⟩,
      ⟨some ("C"), none, none, none, none⟩, ⟨some ("D"), none, none, none, none⟩] : List Part) ≠ [] ∧
    (displayParts (([⟨some ("A"), none, none, none, none⟩, ⟨some ("B"), none, none, none, none⟩,
        ⟨some ("C"), none, none, none, none⟩, ⟨some ("D"), none, none, none, none⟩] : List Part).map some) =
      .ok [Event.partsList
            ((([⟨some ("A"), none, none, none, none⟩, ⟨some ("B"), none, none, none, none⟩,
               ⟨some ("C"), none, none, none, none⟩, ⟨some ("D"), none, none, none, none⟩] : List Part).take 3).map partCardHtml)
            (if ([⟨some ("A"), none, none, none, none⟩, ⟨some ("B"), none, none, none, none⟩,
                  ⟨some ("C"), none, none, none, none⟩, ⟨some ("D"), none, none, none, none⟩] : List Part).length > 3 then
              some (moreHtml (([⟨some ("A"), none, none, none, none⟩, ⟨some ("B"), none, none, none, none⟩,
                  ⟨some ("C"), none, none, none, none⟩, ⟨some ("D"), none, none, none, none⟩] : List Part).length - 3))
             else none)] ∧
      ((([⟨some ("A"), none, none, none, none⟩, ⟨some ("B"), none, none, none, none⟩,
         ⟨some ("C"), none, none, none, none⟩, ⟨some ("D"), none, none, none, none⟩] : List Part).take 3).map partCardHtml).length =
        min ([⟨some ("A"), none, none, none, none⟩, ⟨some ("B"), none, none, none, none⟩,
              ⟨some ("C"), none, none, none, none⟩, ⟨some ("D"), none, none, none, none⟩] : List Part).length 3) :=
  ⟨by decide,
   (displayParts_card_count [⟨some ("A"), none, none, none, none⟩, ⟨some ("B"), none, none, none, none⟩,
      ⟨some ("C"), none, none, none, none⟩, ⟨some ("D"), none, none, none, none⟩]).2 (by decide)⟩

/-- C7: a response with neither reply nor data present is handled by
appending exactly the fixed fallback bot message (after any suggestion
chips), without a throw, without abandoning the exchange bookkeeping, and
with no error notification (no toast is emitted by the handler). -/
theorem fallback_on_missing_reply_and_data (resp : ServerResponse)
    (hr : resp.reply = none) (hd : resp.data = none) :
    (handleServerResponse resp).thrown = none ∧
    (handleServerResponse resp).countInc = true ∧
    ∃ pre, (handleServerResponse resp).events = pre ++ [fallbackEvent] ∧
      (resp.suggestions = none → pre = []) := by
  obtain ⟨reply, type, data, sugg⟩ := resp
  simp only at hr hd
  subst hr
  subst hd
  by_cases htype : type = some ("parts")
  · subst htype
    cases sugg with
    | none => exact ⟨rfl, rfl, [], rfl, fun _ => rfl⟩
    | some l =>
      refine ⟨rfl, rfl, if l.isEmpty then [] else renderSuggestions l, ?_, ?_⟩
      · simp [handleServerResponse, replyFalsy, dataFalsy]
      · intro hnone
        cases hnone
  · cases sugg with
    | none =>
      refine ⟨?_, ?_, [], ?_, fun _ => rfl⟩ <;>
        simp [handleServerResponse, if_neg htype, replyFalsy, dataFalsy]
    | some l =>
      refine ⟨?_, ?_, if l.isEmpty then [] else renderSuggestions l, ?_, ?_⟩
      · simp [handleServerResponse, if_neg htype]
      · simp [handleServerResponse, if_neg htype]
      · simp [handleServerResponse, if_neg htype, replyFalsy, dataFalsy]
      · intro hnone
        cases hnone

/-- Witness for C7 at the empty response object. -/
theorem fallback_on_missing_reply_and_data_witness :
    (handleServerResponse ⟨none, none, none, none⟩).thrown = none ∧
    (handleServerResponse ⟨none, none, none, none⟩).countInc = true ∧
    ∃ pre, (handleServerResponse ⟨none, none, none, none⟩).events = pre ++ [fallbackEvent] ∧
      ((⟨none, none, none, none⟩ : ServerResponse).suggestions = none → pre = []) :=
  fallback_on_missing_reply_and_data ⟨none, none, none, none⟩ rfl rfl

/-- C8 counterexample: rendering is not total on arbitrary field values:
a parts response whose data array contains a null element makes
`_displayParts` dereference `null.sales_price`, which throws. -/
theorem render_throws_on_null_part :
    (handleServerResponse ⟨none, some ("parts"), some [none], none⟩).thrown =
      some ("TypeError: null part") := by decide

theorem buildCards_ok :
    ∀ l : List (Option Part), l.all Option.isSome = true → ∃ cs, buildCards l = .ok cs := by
  intro l
  induction l with
  | nil => exact fun _ => ⟨[], rfl⟩
  | cons x t ih =>
    intro h
    rw [List.all_cons, Bool.and_eq_true] at h
    cases x with
    | none => simp [Option.isSome] at h
    | some p =>
      obtain ⟨cs, hcs⟩ := ih h.2
      exact ⟨partCardHtml p :: cs, by simp [buildCards, hcs]⟩

theorem displayParts_ok (l : List (Option Part)) (h : l.all Option.isSome = true) :
    ∃ evs, displayParts l = .ok evs := by
  unfold displayParts
  by_cases he : l.isEmpty
  · rw [if_pos he]
    exact ⟨[], rfl⟩
  · rw [if_neg he]
    have htake : (l.take 3).all Option.isSome = true := by
      rw [List.all_eq_true] at h ⊢
      exact fun x hx => h x (List.take_subset 3 l hx)
    obtain ⟨cs, hcs⟩ := buildCards_ok (l.take 3) htake
    rw [hcs]
    exact ⟨_, rfl⟩

/-- C8 amended: every optional field access has a default, so rendering a
response whose data array contains no null entries never throws (and the
trailing message-count update is reached); with a null entry in the first
three data elements the card loop throws, as the counterexample shows. -/
theorem render_total_on_welltyped (resp : ServerResponse)
    (h : dataAllSome resp.data = true) :
    (handleServerResponse resp).thrown = none ∧
    (handleServerResponse resp).countInc = true := by
  obtain ⟨reply, type, data, sugg⟩ := resp
  simp only at h
  by_cases htype : type = some ("parts")
  · subst htype
    cases data with
    | none => exact ⟨rfl, rfl⟩
    | some l =>
      have hl : l.all Option.isSome = true := by simpa [dataAllSome] using h
      obtain ⟨evs, hevs⟩ := displayParts_ok l hl
      simp [handleServerResponse, hevs]
  · cases data with
    | none => constructor <;> simp [handleServerResponse, if_neg htype]
    | some l => constructor <;> simp [handleServerResponse, if_neg htype]

/-- Witness for C8 amended: a well-typed parts response renders without a
throw. -/
theorem render_total_on_welltyped_witness :
    dataAllSome (⟨some ("ok"), some ("parts"), some [some ⟨some ("Oil filter"), none, none, some 450, some 2⟩],
        none⟩ : ServerResponse).data = true ∧
    ((handleServerResponse ⟨some ("ok"), some ("parts"),
        some [some ⟨some ("Oil filter"), none, none, some 450, some 2⟩], none⟩).thrown = none ∧
     (handleServerResponse ⟨some ("ok"), some ("parts"),
        some [some ⟨some ("Oil filter"), none, none, some 450, some 2⟩], none⟩).countInc = true) :=
  ⟨by decide,
   render_total_on_welltyped
     ⟨some ("ok"), some ("parts"), some [some ⟨some ("Oil filter"), none, none, some 450, some 2⟩], none⟩
     (by decide)⟩

theorem base36Char_isAlphanum : ∀ d : Fin 36, (base36Char d).isAlphanum = true := by decide

/-- C9 counterexample: the synthesized token does not always carry an
8-character random suffix: when the random double has a short base-36
fractional expansion (here a single digit, as for `Math.random() = 0.5`)
the `slice(2, 10)` yields fewer than 8 characters. -/
theorem session_suffix_not_always_8 :
    (restoreOrCreateSessionId .absent 1700000000000 [(18 : Fin 36)] true).1 =
      "session_1700000000000_" ++ randomSuffix [(18 : Fin 36)] ∧
    randomSuffix [(18 : Fin 36)] = "i" ∧
    (randomSuffix [(18 : Fin 36)]).length = 1 ∧
    (1 : Nat) ≠ 8 :=
  ⟨by decide, by decide, by decide, by decide⟩

/-- C9 amended: when no token can be read (absent, a thrown read, or an
empty stored value) the function returns the fresh token
`session_` + millis + `_` + suffix, where the suffix is the first
min(8, available) base-36 fractional digits of the random value — all
alphanumeric, exactly 8 only when at least 8 digits exist; the result does
not depend on whether the storage write succeeds (write failures are
swallowed). -/
theorem session_id_synthesis (read : StorageRead) (now : Nat)
    (digits : List (Fin 36)) (w : Bool)
    (h : read = .absent ∨ read = .threw ∨ read = .val ("")) :
    (restoreOrCreateSessionId read now digits w).1 =
      "session_" ++ natRepr now ++ "_" ++ randomSuffix digits ∧
    (restoreOrCreateSessionId read now digits w).1 =
      (restoreOrCreateSessionId read now digits true).1 ∧
    (randomSuffix digits).length = min 8 digits.length ∧
    ∀ c ∈ (randomSuffix digits).data, c.isAlphanum = true := by
  have hlen : (randomSuffix digits).length = min 8 digits.length := by
    simp [randomSuffix, List.length_take, List.length_map]
  have halpha : ∀ c ∈ (randomSuffix digits).data, c.isAlphanum = true := by
    intro c hc
    have hc2 : c ∈ (digits.map base36Char).take 8 := hc
    have hc3 : c ∈ digits.map base36Char := List.take_subset 8 _ hc2
    obtain ⟨d, _, hd⟩ := List.mem_map.mp hc3
    rw [← hd]
    exact base36Char_isAlphanum d
  rcases h with h | h | h <;> subst h <;>
    exact ⟨rfl, rfl, hlen, halpha⟩

/-- Witness for C9 amended in the absent-storage case. -/
theorem session_id_synthesis_witness :
    (StorageRead.absent = StorageRead.absent ∨ StorageRead.absent = StorageRead.threw ∨
      StorageRead.absent = StorageRead.val ("")) ∧
    ((restoreOrCreateSessionId .absent 42 [(5 : Fin 36)] false).1 =
      "session_" ++ natRepr 42 ++ "_" ++ randomSuffix [(5 : Fin 36)] ∧
     (randomSuffix [(5 : Fin 36)]).length = min 8 ([(5 : Fin 36)] : List (Fin 36)).length) :=
  ⟨Or.inl rfl,
   ⟨(session_id_synthesis .absent 42 [(5 : Fin 36)] false (Or.inl rfl)).1,
    (session_id_synthesis .absent 42 [(5 : Fin 36)] false (Or.inl rfl)).2.2.1⟩⟩

/-- C10: a suggestion label is interpolated verbatim into the chip markup
after the icon element, with no HTML escaping — a label containing markup
stays markup — unlike reply text and part fields, whose escape leaves no
raw angle bracket. -/
theorem suggestion_label_unescaped (label : String) :
    (suggestionChipHtml label).data =
      ("<i class=\x22" ++ suggestionIcon label ++ "\x22></i> ").data ++ label.data ∧
    isInfixL ("<b>").data (suggestionChipHtml ("<b>x</b>")).data = true ∧
    isInfixL ("<b>").data (formatMessage ("<b>x</b>")).data = false ∧
    ∀ c ∈ (escapeHtml ("<b>x</b>")).data, c ≠ '<' :=
  ⟨String.data_append _ label, by decide, by decide, by decide⟩

/-- Witness for C10 at a concrete markup label. -/
theorem suggestion_label_unescaped_witness :
    (suggestionChipHtml ("Search Parts")).data =
      ("<i class=\x22" ++ suggestionIcon ("Search Parts") ++ "\x22></i> ").data ++
        "Search Parts".data ∧
    isInfixL ("<b>").data (suggestionChipHtml ("<b>x</b>")).data = true :=
  ⟨(suggestion_label_unescaped ("Search Parts")).1,
   (suggestion_label_unescaped ("Search Parts")).2.1⟩

end IMOBOT
